import Mathlib

/-!
Verification development for the `billingapp` Django application
(models.py, utils.py, permissions.py), shallowly embedded in Lean.

Conventions of the embedding:
* Python `Decimal` values are modelled as `ℚ`.  Every arithmetic operation
  that the totals code performs (`+`, `*`, `/ 100`) is exact in `Decimal`
  for the magnitudes involved (rounding only occurs beyond 28 significant
  digits), so `ℚ` is a faithful model.
* Django model rows are records; a table is a `List` of rows in insertion
  order (`created_at` order).
* `JSONField` snapshots are modelled by a concrete `Snapshot` record that
  mirrors the dictionary built by `BaseDocument.lock_version_data`.
* Dates and timestamps are modelled as natural numbers.
* String comparison used by SQL `MAX` on a varchar column is lexicographic
  by code point; it is modelled by `charListLt` below.
-/

namespace Billing

/-- Status enum of `BaseDocument.Status` (models.py). -/
inductive Status where
  | draft
  | sent
  | viewed
  | paid
  | partially_paid
  | overdue
  | cancelled
deriving DecidableEq, Repr

/-- Role enum of `User.Role` (models.py). -/
inductive Role where
  | owner
  | admin
  | accountant
  | user
deriving DecidableEq, Repr

/-- Line items of `InvoiceLineItem` / `QuoteLineItem` (models.py): the two
classes carry identical fields and an identical `line_total` property. -/
structure LineItem where
  description : String
  quantity : ℕ
  unit_price : ℚ
  discount : ℚ
deriving DecidableEq, Repr

/-- `InvoiceLineItem.line_total` / `QuoteLineItem.line_total` (models.py):
`subtotal = quantity * unit_price; discount_amount = (subtotal * discount) / 100;
return subtotal - discount_amount`. -/
def LineItem.line_total (it : LineItem) : ℚ :=
  (it.quantity : ℚ) * it.unit_price - ((it.quantity : ℚ) * it.unit_price * it.discount) / 100

/-- The company fields read by `lock_version_data` (models.py `Company`).
`logo_url` models `self.company.logo.url if self.company.logo else None`. -/
structure Company where
  name : String
  email : Option String
  phone : Option String
  address_line1 : Option String
  address_line2 : Option String
  city : Option String
  state : Option String
  postal_code : Option String
  country : Option String
  logo_url : Option String
  primary_color : String
  accent_color : String
  font_family : String
deriving DecidableEq, Repr

/-- The `company` sub-dictionary of the `versioned_data` snapshot. -/
structure SnapCompany where
  name : String
  email : Option String
  phone : Option String
  address_line1 : Option String
  address_line2 : Option String
  city : Option String
  state : Option String
  postal_code : Option String
  country : Option String
  logo_url : Option String
  primary_color : String
  accent_color : String
  font_family : String
deriving DecidableEq, Repr

/-- The `client` sub-dictionary of the `versioned_data` snapshot. -/
structure SnapClient where
  name : String
  company : Option String
  email : Option String
  phone : Option String
  address : Option String
deriving DecidableEq, Repr

/-- The `document` sub-dictionary of the `versioned_data` snapshot. -/
structure SnapDocument where
  number : String
  issue_date : ℕ
  due_date : Option ℕ
  currency : String
  tax_rate : ℚ
  discount_rate : ℚ
  notes : Option String
deriving DecidableEq, Repr

/-- One entry of the `items` list of the `versioned_data` snapshot. -/
structure SnapItem where
  description : String
  quantity : ℕ
  unit_price : ℚ
  discount : ℚ
  line_total : ℚ
deriving DecidableEq, Repr

/-- The `totals` sub-dictionary of the `versioned_data` snapshot. -/
structure SnapTotals where
  subtotal : ℚ
  tax_total : ℚ
  discount_total : ℚ
  total : ℚ
deriving DecidableEq, Repr

/-- The full `versioned_data` JSON blob written by `lock_version_data`.
The Python field is a dict whose falsy value (`{}`, the model default) marks
the unlocked state; here the unlocked state is `none` at the `Option` level. -/
structure Snapshot where
  company : SnapCompany
  client : SnapClient
  document : SnapDocument
  items : List SnapItem
  totals : SnapTotals
  locked_at : ℕ
deriving DecidableEq, Repr

/-- A document row of `BaseDocument` (models.py), shared by Invoice, Quote
and Receipt.  Foreign keys are modelled by numeric ids. -/
structure Document where
  companyId : ℕ
  createdById : ℕ
  client_name : String
  client_company : Option String
  client_email : Option String
  client_phone : Option String
  client_address : Option String
  number : String
  issue_date : ℕ
  due_date : Option ℕ
  currency : String
  tax_rate : ℚ
  discount_rate : ℚ
  notes : Option String
  versioned_data : Option Snapshot
  metadata : List (String × String)
  status : Status
  is_deleted : Bool
  items : List LineItem
deriving DecidableEq, Repr

/-- `BaseDocument.subtotal` (models.py): sum of the items' `line_total`. -/
def Document.subtotal (d : Document) : ℚ :=
  (d.items.map LineItem.line_total).sum

/-- `BaseDocument.tax_total` (models.py): `(self.subtotal * self.tax_rate) / 100`. -/
def Document.tax_total (d : Document) : ℚ :=
  d.subtotal * d.tax_rate / 100

/-- `BaseDocument.discount_total` (models.py): `(self.subtotal * self.discount_rate) / 100`. -/
def Document.discount_total (d : Document) : ℚ :=
  d.subtotal * d.discount_rate / 100

/-- `BaseDocument.total` (models.py): `self.subtotal + self.tax_total - self.discount_total`. -/
def Document.total (d : Document) : ℚ :=
  d.subtotal + d.tax_total - d.discount_total

/-- The snapshot dictionary built by `BaseDocument.lock_version_data`
(models.py).  `now` stands for `timezone.now()`. -/
def mkSnapshot (d : Document) (co : Company) (now : ℕ) : Snapshot :=
  { company :=
      { name := co.name
        email := co.email
        phone := co.phone
        address_line1 := co.address_line1
        address_line2 := co.address_line2
        city := co.city
        state := co.state
        postal_code := co.postal_code
        country := co.country
        logo_url := co.logo_url
        primary_color := co.primary_color
        accent_color := co.accent_color
        font_family := co.font_family }
    client :=
      { name := d.client_name
        company := d.client_company
        email := d.client_email
        phone := d.client_phone
        address := d.client_address }
    document :=
      { number := d.number
        issue_date := d.issue_date
        due_date := d.due_date
        currency := d.currency
        tax_rate := d.tax_rate
        discount_rate := d.discount_rate
        notes := d.notes }
    items := d.items.map fun it =>
      { description := it.description
        quantity := it.quantity
        unit_price := it.unit_price
        discount := it.discount
        line_total := it.line_total }
    totals :=
      { subtotal := d.subtotal
        tax_total := d.tax_total
        discount_total := d.discount_total
        total := d.total }
    locked_at := now }

/-- `BaseDocument.lock_version_data` (models.py): builds the snapshot and
persists it with `self.save(update_fields=['versioned_data'])`, i.e. the
resulting row differs from `d` in the `versioned_data` field only. -/
def lock_version_data (d : Document) (co : Company) (now : ℕ) : Document :=
  { d with versioned_data := some (mkSnapshot d co now) }

/-! ### Document numbering (models.py `Invoice.save` / `Quote.save` / `Receipt.save`) -/

/-- Python's `f"{n:04d}"`: the decimal digits of `n`, left-padded with zeros
to width 4 (numbers of five or more digits are printed unpadded). -/
def format4 (n : ℕ) : String :=
  if n < 10000 then
    String.mk [Nat.digitChar (n / 1000), Nat.digitChar (n / 100 % 10),
               Nat.digitChar (n / 10 % 10), Nat.digitChar (n % 10)]
  else toString n

/-- Lexicographic comparison of character lists by code point: the string
order used by SQL `MAX` on a varchar column (all numbers involved are
ASCII). -/
def charListLt : List Char → List Char → Bool
  | [], [] => false
  | [], _ :: _ => true
  | _ :: _, [] => false
  | a :: as, b :: bs => if a = b then charListLt as bs else decide (a.toNat < b.toNat)

/-- One step of the aggregate `Max`: keep the larger of the accumulator and
the next value. -/
def maxStep (acc : Option String) (s : String) : Option String :=
  match acc with
  | none => some s
  | some m => if charListLt m.data s.data then some s else some m

/-- Django's `aggregate(Max("number"))`: the lexicographically largest
string of the list, `none` on an empty queryset. -/
def maxNumber? (l : List String) : Option String := l.foldl maxStep none

/-- `str.split("-")` on a character list: `splitDashAux acc rest` accumulates
the current field in `acc` (reversed). -/
def splitDashAux : List Char → List Char → List (List Char)
  | acc, [] => [acc.reverse]
  | acc, c :: cs =>
    if c = '-' then acc.reverse :: splitDashAux [] cs else splitDashAux (c :: acc) cs

/-- Digit-string accumulator for Python's `int(...)`. -/
def parseNatAux : ℕ → List Char → Option ℕ
  | acc, [] => some acc
  | acc, c :: cs => if c.isDigit then parseNatAux (10 * acc + (c.toNat - 48)) cs else none

/-- Python's `int(s)` for non-negative inputs: `some` of the value when `s`
is a nonempty string of decimal digits, `none` (a `ValueError`) otherwise. -/
def pyInt (cs : List Char) : Option ℕ :=
  if cs.isEmpty then none else parseNatAux 0 cs

/-- `int(last_number.split("-")[-1])` from the `save` methods.  A
`ValueError` on a malformed number would propagate out of `save`; every
number the theorems below parse has an all-digit final field, so the
`getD 0` default is never exercised. -/
def seqOf (s : String) : ℕ :=
  (pyInt ((splitDashAux [] s.data).getLastD [])).getD 0

/-- A row of one document table (Invoice, Quote or Receipt), reduced to the
fields the numbering logic reads.  The list holding the rows is kept in
insertion (`created_at`) order. -/
structure DocRow where
  company : ℕ
  number : String
  is_deleted : Bool
deriving DecidableEq, Repr

/-- `f"{self.company.invoice_prefix}-{year}-"`, the year-scoped stem of a
document number. -/
def numberStem (pfx : String) (yr : ℕ) : String :=
  pfx ++ "-" ++ toString yr ++ "-"

/-- A fully formatted document number `{pfx}-{yr}-{seq:04d}`. -/
def mkNumber (pfx : String) (yr : ℕ) (s : ℕ) : String :=
  numberStem pfx yr ++ format4 s

/-- The auto-numbering block of `Invoice.save` (models.py; `Quote.save` and
`Receipt.save` are verbatim copies with their own prefixes): filter the
table by company and by `number__startswith` the year stem, take
`aggregate(Max("number"))`, parse the part after the last dash, add one
(1 when the queryset is empty) and zero-pad to four digits. -/
def save_next_number (db : List DocRow) (c : ℕ) (pfx : String) (yr : ℕ) : String :=
  let p := numberStem pfx yr
  let nums := (db.filter fun r => r.company == c && p.data.isPrefixOf r.number.data).map
    DocRow.number
  match maxNumber? nums with
  | none => p ++ format4 1
  | some m => p ++ format4 (seqOf m + 1)

/-- Creating a document with a blank `number`: `save` assigns
`save_next_number` and the row is appended to the table. -/
def create_document (db : List DocRow) (c : ℕ) (pfx : String) (yr : ℕ) :
    List DocRow × String :=
  let n := save_next_number db c pfx yr
  (db ++ [⟨c, n, false⟩], n)

/-- `n` sequential creations through `save`, starting from an empty table. -/
def create_run (c : ℕ) (pfx : String) (yr : ℕ) : ℕ → List DocRow
  | 0 => []
  | n + 1 => (create_document (create_run c pfx yr n) c pfx yr).1

/-- The `unique=True` constraint on `BaseDocument.number`: inserting a row
whose number equals any existing row's number fails, regardless of which
company owns the existing row. -/
def unique_violation (db : List DocRow) (n : String) : Prop :=
  ∃ r ∈ db, r.number = n

/-- Fuel-indexed helper for Python's `str.replace(pat, "")`: removes
non-overlapping occurrences of `pat` left to right (`pat` is nonempty at
every call site). -/
def removeAllAux (pat : List Char) : ℕ → List Char → List Char
  | _, [] => []
  | 0, l => l
  | fuel + 1, c :: cs =>
    if pat.isPrefixOf (c :: cs) then removeAllAux pat fuel (cs.drop (pat.length - 1))
    else c :: removeAllAux pat fuel cs

/-- Python's `s.replace(pat, "")`. -/
def pyReplaceEmpty (s pat : String) : String :=
  ⟨removeAllAux pat.data s.data.length s.data⟩

/-- The body of `generate_next_number` (utils.py) after `model_map` has
selected the table and the raw prefix: filter by company and
`number__startswith`, take the newest row by `created_at` (the last of the
list), strip the prefix with `str.replace`, parse with `int()` —
`ValueError` falls back to 1 — and format `f"{prefix}{next_number:04d}"`.
Unlike the `save` methods, no year is involved. -/
def generate_next_number_core (db : List DocRow) (c : ℕ) (p : String) : String :=
  let latest := (db.filter fun r => r.company == c && p.data.isPrefixOf r.number.data).getLast?
  match latest with
  | none => p ++ format4 1
  | some r =>
    match pyInt (pyReplaceEmpty r.number p).data with
    | some k => p ++ format4 (k + 1)
    | none => p ++ format4 1

/-- `generate_next_number(company, 'invoice')` (utils.py): the prefix is
`company.invoice_prefix or 'INV-'` (the fallback fires only on an empty
prefix; the `Company` model default is `"INV"`). -/
def generate_next_number_invoice (db : List DocRow) (c : ℕ) (invPfx : String) : String :=
  generate_next_number_core db c (if invPfx = "" then "INV-" else invPfx)

/-- The numbering algorithm as worded in the spec (section 4.1), stated
independently for comparison with `save_next_number`: find the maximum
existing number string with the current year's prefix for that company,
parse the trailing zero-padded sequence, increment by one (default to 1 if
none exists), format back to a 4-digit zero-padded string. -/
def spec_next_number (db : List DocRow) (c : ℕ) (pfx : String) (yr : ℕ) : String :=
  let p := pfx ++ "-" ++ toString yr ++ "-"
  let existing := (db.filter fun r => r.company == c && p.data.isPrefixOf r.number.data).map
    DocRow.number
  let seq : ℕ :=
    match maxNumber? existing with
    | none => 1
    | some m => seqOf m + 1
  p ++ format4 seq

/-! ### Access control (permissions.py) -/

/-- The fields of the `User` model read by the permission checks. -/
structure AppUser where
  id : ℕ
  role : Role
  company : Option ℕ
  is_authenticated : Bool
deriving DecidableEq, Repr

/-- `can_user_access_document` (permissions.py): authenticated, attached to
the document's company; owners/admins and accountants see everything, other
users only documents they created. -/
def can_user_access_document (u : AppUser) (d : Document) : Bool :=
  if u.is_authenticated = false then false
  else
    match u.company with
    | none => false
    | some cid =>
      if ¬ d.companyId = cid then false
      else if u.role = Role.owner ∨ u.role = Role.admin then true
      else if u.role = Role.accountant then true
      else if d.createdById = u.id then true
      else false

/-- `can_user_edit_document` (permissions.py): requires access; blocks
sent/paid/partially-paid documents for non-owner/admin roles. -/
def can_user_edit_document (u : AppUser) (d : Document) : Bool :=
  if can_user_access_document u d = false then false
  else if (d.status = Status.sent ∨ d.status = Status.paid ∨ d.status = Status.partially_paid)
      ∧ ¬ (u.role = Role.owner ∨ u.role = Role.admin) then false
  else true

/-- `can_user_delete_document` (permissions.py): requires access, restricted
to owner/admin, and never allowed on paid/partially-paid documents. -/
def can_user_delete_document (u : AppUser) (d : Document) : Bool :=
  if can_user_access_document u d = false then false
  else if ¬ (u.role = Role.owner ∨ u.role = Role.admin) then false
  else if d.status = Status.paid ∨ d.status = Status.partially_paid then false
  else true

/-! ### PDF generation and download (utils.py) -/

/-- A `PDFLog` row (models.py). -/
structure PDFLog where
  company : ℕ
  document_type : String
  document_id : ℕ
  file_path : Option String
  download_token : String
  created_at : ℕ
  expires_at : ℕ
  downloaded_at : Option ℕ
  deleted : Bool
deriving DecidableEq, Repr

/-- `create_pdf_for_document` (utils.py), restricted to its database
effects: lock `versioned_data` if it is still empty, render from
`document.versioned_data` (returned as the third component — the blob the
PDF is produced from), and create a `PDFLog` row with a fresh `token`
(`secrets.token_urlsafe`, passed in here) expiring `expiresSecs` seconds
from `now`.  The HTML/CSS rendering and the byte-level PDF output are
external-library I/O and are not modelled. -/
def create_pdf_for_document (d : Document) (co : Company) (docType : String)
    (docId : ℕ) (now expiresSecs : ℕ) (token : String) :
    Document × PDFLog × Option Snapshot :=
  let d' := if d.versioned_data = none then lock_version_data d co now else d
  let filename := docType ++ "_" ++ d'.number ++ "_" ++ String.mk (token.data.take 8) ++ ".pdf"
  let log : PDFLog :=
    { company := d.companyId
      document_type := docType
      document_id := docId
      file_path := some filename
      download_token := token
      created_at := now
      expires_at := now + expiresSecs
      downloaded_at := none
      deleted := false }
  (d', log, d'.versioned_data)

/-- `serve_pdf_download` (utils.py).  `files` is the set of paths present on
disk (`os.path.exists`); `now` is `timezone.now()`.  Every failure —
unknown token (`get_object_or_404`), expiry, missing file — is re-raised by
the surrounding `except` block as `Http404("PDF download failed")`.  On
success the first download stamps `downloaded_at` (via
`save(update_fields=['downloaded_at'])`); the row is never removed.  The
result pairs the response (file path and attachment filename) with the
updated table. -/
def serve_pdf_download (db : List PDFLog) (token : String) (files : List String)
    (now : ℕ) : Except String (String × String) × List PDFLog :=
  match db.find? (fun l => l.download_token == token) with
  | none => (Except.error "PDF download failed", db)
  | some log =>
    if now > log.expires_at then (Except.error "PDF download failed", db)
    else
      match log.file_path with
      | none => (Except.error "PDF download failed", db)
      | some path =>
        if path = "" ∨ ¬ files.contains path then (Except.error "PDF download failed", db)
        else
          let db' :=
            if log.downloaded_at = none then
              db.map fun l =>
                if l.download_token == token then { l with downloaded_at := some now } else l
            else db
          (Except.ok (path, log.document_type ++ "_" ++ toString log.document_id ++ ".pdf"), db')

/-! ### Concrete example records used by the witnesses -/

/-- A company with the model defaults for branding. -/
def example_company : Company :=
  { name := "Acme"
    email := none
    phone := none
    address_line1 := none
    address_line2 := none
    city := none
    state := none
    postal_code := none
    country := none
    logo_url := none
    primary_color := "#6B46C1"
    accent_color := "#8B5CF6"
    font_family := "Inter, system-ui, sans-serif" }

/-- The line item of the spec's worked example: qty=2, unit price=100,
discount=10%. -/
def example_item : LineItem :=
  { description := "Consulting"
    quantity := 2
    unit_price := 100
    discount := 10 }

/-- The invoice of the spec's worked example: one line item,
tax_rate=8.25%, discount_rate=0. -/
def example_invoice : Document :=
  { companyId := 1
    createdById := 1
    client_name := "Client"
    client_company := none
    client_email := none
    client_phone := none
    client_address := none
    number := "INV-2025-0001"
    issue_date := 0
    due_date := none
    currency := "USD"
    tax_rate := 8.25
    discount_rate := 0
    notes := none
    versioned_data := none
    metadata := []
    status := Status.draft
    is_deleted := false
    items := [example_item] }

/-! ### Helper lemmas about the numbering primitives -/

theorem char_toNat_inj {a b : Char} (h : a.toNat = b.toNat) : a = b :=
  Char.eq_of_val_eq (UInt32.ext h)

theorem charListLt_irrefl : ∀ l, charListLt l l = false
  | [] => rfl
  | _ :: as => by simp [charListLt, charListLt_irrefl as]

theorem charListLt_trans : ∀ {A B C : List Char},
    charListLt A B = true → charListLt B C = true → charListLt A C = true
  | [], [], _, h1, _ => by simp [charListLt] at h1
  | [], _ :: _, [], _, h2 => by simp [charListLt] at h2
  | [], _ :: _, _ :: _, _, _ => rfl
  | _ :: _, [], _, h1, _ => by simp [charListLt] at h1
  | _ :: _, _ :: _, [], _, h2 => by simp [charListLt] at h2
  | a :: as, b :: bs, c :: cs, h1, h2 => by
    simp only [charListLt] at h1 h2 ⊢
    by_cases hab : a = b <;> by_cases hbc : b = c
    · subst hab; subst hbc
      simp_all
      exact charListLt_trans h1 h2
    · subst hab
      simp_all
    · subst hbc
      simp_all
    · simp only [if_neg hab, decide_eq_true_eq] at h1
      simp only [if_neg hbc, decide_eq_true_eq] at h2
      by_cases hac : a = c
      · subst hac; omega
      · simp [if_neg hac]; omega

theorem charListLt_total : ∀ A B : List Char,
    charListLt A B = true ∨ charListLt B A = true ∨ A = B
  | [], [] => Or.inr (Or.inr rfl)
  | [], _ :: _ => Or.inl rfl
  | _ :: _, [] => Or.inr (Or.inl rfl)
  | a :: as, b :: bs => by
    by_cases hab : a = b
    · subst hab
      rcases charListLt_total as bs with h | h | h
      · exact Or.inl (by simp [charListLt, h])
      · exact Or.inr (Or.inl (by simp [charListLt, h]))
      · exact Or.inr (Or.inr (by rw [h]))
    · have hne : a.toNat ≠ b.toNat := fun h => hab (char_toNat_inj h)
      rcases Nat.lt_or_ge a.toNat b.toNat with h | h
      · exact Or.inl (by simp [charListLt, if_neg hab, h])
      · have hlt : b.toNat < a.toNat := by omega
        have hba : b ≠ a := fun h => hab h.symm
        exact Or.inr (Or.inl (by simp [charListLt, if_neg hba, hlt]))

theorem charListLt_append_left : ∀ (p A B : List Char),
    charListLt (p ++ A) (p ++ B) = charListLt A B
  | [], _, _ => rfl
  | c :: p, A, B => by simp [charListLt, charListLt_append_left p A B]

theorem digitChar_toNat {d : ℕ} (h : d < 10) : (Nat.digitChar d).toNat = 48 + d := by
  interval_cases d <;> decide

theorem digitChar_inj_iff {a b : ℕ} (ha : a < 10) (hb : b < 10) :
    Nat.digitChar a = Nat.digitChar b ↔ a = b := by
  interval_cases a <;> interval_cases b <;> decide

theorem digitChar_isDigit {d : ℕ} (h : d < 10) : (Nat.digitChar d).isDigit = true := by
  interval_cases d <;> decide

theorem digitChar_ne_dash {d : ℕ} (h : d < 10) : Nat.digitChar d ≠ '-' := by
  interval_cases d <;> decide

theorem format4_data {s : ℕ} (h : s < 10000) :
    (format4 s).data = [Nat.digitChar (s / 1000), Nat.digitChar (s / 100 % 10),
      Nat.digitChar (s / 10 % 10), Nat.digitChar (s % 10)] := by
  simp [format4, h]

theorem charListLt_digits4 {x3 x2 x1 x0 y3 y2 y1 y0 : ℕ}
    (h3 : x3 < 10) (h2 : x2 < 10) (h1 : x1 < 10) (h0 : x0 < 10)
    (g3 : y3 < 10) (g2 : y2 < 10) (g1 : y1 < 10) (g0 : y0 < 10) :
    charListLt
      [Nat.digitChar x3, Nat.digitChar x2, Nat.digitChar x1, Nat.digitChar x0]
      [Nat.digitChar y3, Nat.digitChar y2, Nat.digitChar y1, Nat.digitChar y0] = true ↔
    1000 * x3 + 100 * x2 + 10 * x1 + x0 < 1000 * y3 + 100 * y2 + 10 * y1 + y0 := by
  have t3 := digitChar_toNat h3
  have t2 := digitChar_toNat h2
  have t1 := digitChar_toNat h1
  have t0 := digitChar_toNat h0
  have u3 := digitChar_toNat g3
  have u2 := digitChar_toNat g2
  have u1 := digitChar_toNat g1
  have u0 := digitChar_toNat g0
  simp only [charListLt]
  by_cases e3 : x3 = y3
  · subst e3
    simp only [eq_self_iff_true, if_true]
    by_cases e2 : x2 = y2
    · subst e2
      simp only [eq_self_iff_true, if_true]
      by_cases e1 : x1 = y1
      · subst e1
        simp only [eq_self_iff_true, if_true]
        by_cases e0 : x0 = y0
        · subst e0
          simp only [eq_self_iff_true, if_true]
          simp only [Bool.false_eq_true, false_iff]
          omega
        · have hne : ¬ (Nat.digitChar x0 = Nat.digitChar y0) := by
            rw [digitChar_inj_iff h0 g0]; exact e0
          simp only [if_neg hne, decide_eq_true_eq]
          omega
      · have hne : ¬ (Nat.digitChar x1 = Nat.digitChar y1) := by
          rw [digitChar_inj_iff h1 g1]; exact e1
        simp only [if_neg hne, decide_eq_true_eq]
        omega
    · have hne : ¬ (Nat.digitChar x2 = Nat.digitChar y2) := by
        rw [digitChar_inj_iff h2 g2]; exact e2
      simp only [if_neg hne, decide_eq_true_eq]
      omega
  · have hne : ¬ (Nat.digitChar x3 = Nat.digitChar y3) := by
      rw [digitChar_inj_iff h3 g3]; exact e3
    simp only [if_neg hne, decide_eq_true_eq]
    omega

theorem digits_recombine {s : ℕ} (h : s < 10000) :
    1000 * (s / 1000) + 100 * (s / 100 % 10) + 10 * (s / 10 % 10) + s % 10 = s := by
  omega

theorem charListLt_format4 {a b : ℕ} (ha : a < 10000) (hb : b < 10000) :
    charListLt (format4 a).data (format4 b).data = true ↔ a < b := by
  rw [format4_data ha, format4_data hb,
    charListLt_digits4 (by omega) (by omega) (by omega) (by omega)
      (by omega) (by omega) (by omega) (by omega),
    digits_recombine ha, digits_recombine hb]

theorem format4_inj {a b : ℕ} (ha : a < 10000) (hb : b < 10000)
    (h : format4 a = format4 b) : a = b := by
  by_contra hne
  rcases Nat.lt_or_ge a b with hlt | hge
  · have := (charListLt_format4 ha hb).mpr hlt
    rw [h, charListLt_irrefl] at this
    exact Bool.false_ne_true this
  · have hlt : b < a := by omega
    have := (charListLt_format4 hb ha).mpr hlt
    rw [h, charListLt_irrefl] at this
    exact Bool.false_ne_true this

theorem format4_data_length {s : ℕ} (h : s < 10000) : (format4 s).data.length = 4 := by
  rw [format4_data h]; rfl

theorem format4_10000_length : (format4 10000).data.length = 5 := by decide

theorem splitDashAux_nodash {ds : List Char} (h : ∀ c ∈ ds, c ≠ '-') :
    ∀ acc, splitDashAux acc ds = [acc.reverse ++ ds] := by
  induction ds with
  | nil => intro acc; simp [splitDashAux]
  | cons c cs ih =>
    intro acc
    have hc : c ≠ '-' := h c (List.mem_cons_self c cs)
    have hcs : ∀ x ∈ cs, x ≠ '-' := fun x hx => h x (List.mem_cons_of_mem c hx)
    simp [splitDashAux, hc, ih hcs]

theorem splitDashAux_dash (acc rest : List Char) :
    splitDashAux acc ('-' :: rest) = acc.reverse :: splitDashAux [] rest := by
  simp [splitDashAux]

theorem splitDashAux_nondash {c : Char} (hc : c ≠ '-') (acc rest : List Char) :
    splitDashAux acc (c :: rest) = splitDashAux (c :: acc) rest := by
  simp [splitDashAux, hc]

theorem getLastD_splitDashAux {ds : List Char} (h : ∀ c ∈ ds, c ≠ '-') :
    ∀ (l acc d : List Char), (splitDashAux acc (l ++ '-' :: ds)).getLastD d = ds := by
  intro l
  induction l with
  | nil =>
    intro acc d
    rw [List.nil_append, splitDashAux_dash, List.getLastD_cons, splitDashAux_nodash h []]
    simp
  | cons c cs ih =>
    intro acc d
    by_cases hc : c = '-'
    · subst hc
      rw [List.cons_append, splitDashAux_dash, List.getLastD_cons]
      exact ih [] _
    · rw [List.cons_append, splitDashAux_nondash hc]
      exact ih _ _

theorem pyInt_format4 {s : ℕ} (h : s < 10000) : pyInt (format4 s).data = some s := by
  rw [format4_data h]
  have d3 : s / 1000 < 10 := by omega
  have d2 : s / 100 % 10 < 10 := by omega
  have d1 : s / 10 % 10 < 10 := by omega
  have d0 : s % 10 < 10 := by omega
  simp only [pyInt, List.isEmpty, parseNatAux,
    digitChar_isDigit d3, digitChar_isDigit d2, digitChar_isDigit d1, digitChar_isDigit d0,
    if_true, digitChar_toNat d3, digitChar_toNat d2, digitChar_toNat d1, digitChar_toNat d0,
    Bool.false_eq_true, if_false, Option.some.injEq]
  omega

theorem mkNumber_data (pfx : String) (yr s : ℕ) :
    (mkNumber pfx yr s).data =
      ((pfx ++ "-" ++ toString yr).data ++ ['-']) ++ (format4 s).data := by
  simp [mkNumber, numberStem, String.data_append]

theorem seqOf_mkNumber {pfx : String} {yr s : ℕ} (h : s < 10000) :
    seqOf (mkNumber pfx yr s) = s := by
  have hnd : ∀ c ∈ (format4 s).data, c ≠ '-' := by
    rw [format4_data h]
    intro c hc
    simp only [List.mem_cons, List.not_mem_nil, or_false] at hc
    rcases hc with rfl | rfl | rfl | rfl
    · exact digitChar_ne_dash (by omega)
    · exact digitChar_ne_dash (by omega)
    · exact digitChar_ne_dash (by omega)
    · exact digitChar_ne_dash (by omega)
  rw [seqOf, mkNumber_data, List.append_assoc, List.singleton_append,
    getLastD_splitDashAux hnd, pyInt_format4 h]
  rfl

theorem charListLt_mkNumber {pfx : String} {yr a b : ℕ} (ha : a < 10000) (hb : b < 10000) :
    charListLt (mkNumber pfx yr a).data (mkNumber pfx yr b).data = true ↔ a < b := by
  rw [mkNumber_data, mkNumber_data, charListLt_append_left]
  exact charListLt_format4 ha hb

theorem mkNumber_inj {pfx : String} {yr a b : ℕ} (ha : a < 10000) (hb : b < 10000)
    (h : mkNumber pfx yr a = mkNumber pfx yr b) : a = b := by
  apply format4_inj ha hb
  have hdata := congrArg String.data h
  rw [mkNumber_data, mkNumber_data] at hdata
  exact String.toList_inj.mp (List.append_cancel_left hdata)

theorem mkNumber_seq_length_ne {pfx : String} {yr a b : ℕ}
    (ha : a < 10000) (hb : b = 10000) : mkNumber pfx yr b ≠ mkNumber pfx yr a := by
  intro h
  have := congrArg String.data h
  rw [mkNumber_data, mkNumber_data] at this
  have hd := List.append_cancel_left this
  have hlen := congrArg List.length hd
  rw [format4_data_length ha] at hlen
  subst hb
  rw [format4_10000_length] at hlen
  exact absurd hlen (by norm_num)

theorem foldl_maxStep_spec : ∀ (l : List String) (m : String),
    ∃ m', l.foldl maxStep (some m) = some m' ∧ (m' = m ∨ m' ∈ l) ∧
      charListLt m'.data m.data = false ∧ ∀ x ∈ l, charListLt m'.data x.data = false := by
  intro l
  induction l with
  | nil =>
    intro m
    exact ⟨m, rfl, Or.inl rfl, charListLt_irrefl _, by simp⟩
  | cons s rest ih =>
    intro m
    rw [List.foldl_cons]
    by_cases h : charListLt m.data s.data = true
    · rw [show maxStep (some m) s = some s by simp [maxStep, h]]
      obtain ⟨m', heq, hmem, hms, hall⟩ := ih s
      refine ⟨m', heq, ?_, ?_, ?_⟩
      · rcases hmem with rfl | hm
        · exact Or.inr (List.mem_cons_self _ _)
        · exact Or.inr (List.mem_cons_of_mem _ hm)
      · by_contra hc
        have hc' : charListLt m'.data m.data = true := by
          revert hc
          cases charListLt m'.data m.data <;> simp
        have : charListLt m'.data s.data = true := charListLt_trans hc' h
        rw [hms] at this
        exact Bool.false_ne_true this
      · intro x hx
        rcases List.mem_cons.mp hx with rfl | hx'
        · exact hms
        · exact hall x hx'
    · have hfalse : charListLt m.data s.data = false := by
        revert h
        cases charListLt m.data s.data <;> simp
      rw [show maxStep (some m) s = some m by simp [maxStep, hfalse]]
      obtain ⟨m', heq, hmem, hmm, hall⟩ := ih m
      refine ⟨m', heq, ?_, hmm, ?_⟩
      · rcases hmem with rfl | hm
        · exact Or.inl rfl
        · exact Or.inr (List.mem_cons_of_mem _ hm)
      · intro x hx
        rcases List.mem_cons.mp hx with rfl | hx'
        · by_contra hc
          have hc' : charListLt m'.data x.data = true := by
            revert hc
            cases charListLt m'.data x.data <;> simp
          rcases charListLt_total x.data m.data with ht | ht | ht
          · have : charListLt m'.data m.data = true := charListLt_trans hc' ht
            rw [hmm] at this
            exact Bool.false_ne_true this
          · rw [hfalse] at ht
            exact Bool.false_ne_true ht
          · rw [ht] at hc'
            rw [hmm] at hc'
            exact Bool.false_ne_true hc'
        · exact hall x hx'

theorem maxNumber?_spec {l : List String} (h : l ≠ []) :
    ∃ m, maxNumber? l = some m ∧ m ∈ l ∧ ∀ x ∈ l, charListLt m.data x.data = false := by
  match l, h with
  | s :: rest, _ =>
    rw [maxNumber?, List.foldl_cons]
    rw [show maxStep none s = some s from rfl]
    obtain ⟨m', heq, hmem, hms, hall⟩ := foldl_maxStep_spec rest s
    refine ⟨m', heq, ?_, ?_⟩
    · rcases hmem with rfl | hm
      · exact List.mem_cons_self _ _
      · exact List.mem_cons_of_mem _ hm
    · intro x hx
      rcases List.mem_cons.mp hx with rfl | hx'
      · exact hms
      · exact hall x hx'

theorem isPrefixOf_append_self : ∀ (l t : List Char), List.isPrefixOf l (l ++ t) = true
  | [], _ => by simp [List.isPrefixOf]
  | c :: cs, t => by simp [List.isPrefixOf, isPrefixOf_append_self cs t]

theorem mkNumber_stem_isPrefixOf (pfx : String) (yr s : ℕ) :
    List.isPrefixOf (numberStem pfx yr).data (mkNumber pfx yr s).data = true := by
  rw [mkNumber, String.data_append]
  exact isPrefixOf_append_self _ _

theorem save_next_number_run (c : ℕ) (pfx : String) (yr : ℕ) (n : ℕ) (hn : n ≤ 9999) :
    save_next_number ((List.range n).map fun i => ⟨c, mkNumber pfx yr (i + 1), false⟩)
      c pfx yr = mkNumber pfx yr (n + 1) := by
  rw [save_next_number]
  have hfilter : ((List.range n).map fun i => (⟨c, mkNumber pfx yr (i + 1), false⟩ : DocRow)).filter
      (fun r => r.company == c && (numberStem pfx yr).data.isPrefixOf r.number.data) =
      (List.range n).map fun i => ⟨c, mkNumber pfx yr (i + 1), false⟩ := by
    apply List.filter_eq_self.mpr
    intro r hr
    obtain ⟨i, _, rfl⟩ := List.mem_map.mp hr
    simp [mkNumber_stem_isPrefixOf]
  rw [hfilter, List.map_map]
  rcases Nat.eq_zero_or_pos n with rfl | hpos
  · rw [List.range_zero, List.map_nil]
    rfl
  · have hne : ((List.range n).map (DocRow.number ∘ fun i => (⟨c, mkNumber pfx yr (i + 1), false⟩ : DocRow))) ≠ [] := by
      simp [List.range_eq_nil]
      omega
    obtain ⟨m, hmax, hmem, hall⟩ := maxNumber?_spec hne
    obtain ⟨i₀, hi₀, hm⟩ := List.mem_map.mp hmem
    have hi₀n : i₀ < n := List.mem_range.mp hi₀
    have hmval : m = mkNumber pfx yr (i₀ + 1) := hm.symm
    have hlast : mkNumber pfx yr n ∈
        ((List.range n).map (DocRow.number ∘ fun i => (⟨c, mkNumber pfx yr (i + 1), false⟩ : DocRow))) := by
      apply List.mem_map.mpr
      refine ⟨n - 1, List.mem_range.mpr (by omega), ?_⟩
      simp only [Function.comp]
      rw [show n - 1 + 1 = n from by omega]
    have hbound := hall _ hlast
    have hi0eq : i₀ + 1 = n := by
      by_contra hne'
      have hlt : i₀ + 1 < n := by omega
      have : charListLt m.data (mkNumber pfx yr n).data = true := by
        rw [hmval]
        exact (charListLt_mkNumber (by omega) (by omega)).mpr hlt
      rw [hbound] at this
      exact Bool.false_ne_true this
    rw [hmax]
    show numberStem pfx yr ++ format4 (seqOf m + 1) = mkNumber pfx yr (n + 1)
    rw [hmval, hi0eq, seqOf_mkNumber (show n < 10000 by omega)]
    rfl

theorem create_run_eq (c : ℕ) (pfx : String) (yr : ℕ) :
    ∀ n, n ≤ 9999 →
      create_run c pfx yr n = (List.range n).map fun i => ⟨c, mkNumber pfx yr (i + 1), false⟩
  | 0, _ => rfl
  | n + 1, h => by
    rw [create_run, create_document, create_run_eq c pfx yr n (by omega),
      save_next_number_run c pfx yr n (by omega), List.range_succ, List.map_append]
    rfl

theorem save_next_number_not_mem (db : List DocRow) (c : ℕ) (pfx : String) (yr : ℕ)
    (hWF : ∀ r ∈ db, r.company = c →
      List.isPrefixOf (numberStem pfx yr).data r.number.data = true →
      ∃ s, 1 ≤ s ∧ s ≤ 9999 ∧ r.number = mkNumber pfx yr s) :
    ∀ r ∈ db, r.company = c →
      List.isPrefixOf (numberStem pfx yr).data r.number.data = true →
      save_next_number db c pfx yr ≠ r.number := by
  intro r hr hrc hrp
  obtain ⟨sr, hsr1, hsr2, hsrnum⟩ := hWF r hr hrc hrp
  have hrfilter : r ∈ db.filter
      (fun r => r.company == c && (numberStem pfx yr).data.isPrefixOf r.number.data) := by
    apply List.mem_filter.mpr
    exact ⟨hr, by simp [hrc, hrp]⟩
  have hrnum : r.number ∈ (db.filter
      (fun r => r.company == c && (numberStem pfx yr).data.isPrefixOf r.number.data)).map
      DocRow.number := List.mem_map_of_mem _ hrfilter
  have hne : (db.filter
      (fun r => r.company == c && (numberStem pfx yr).data.isPrefixOf r.number.data)).map
      DocRow.number ≠ [] := List.ne_nil_of_mem hrnum
  obtain ⟨m, hmax, hmem, hall⟩ := maxNumber?_spec hne
  obtain ⟨rm, hrm, hrmnum⟩ := List.mem_map.mp hmem
  have hrmf := List.mem_filter.mp hrm
  have hrmc : rm.company = c := by
    have := hrmf.2
    simp only [Bool.and_eq_true, beq_iff_eq] at this
    exact this.1
  have hrmp : List.isPrefixOf (numberStem pfx yr).data rm.number.data = true := by
    have := hrmf.2
    simp only [Bool.and_eq_true, beq_iff_eq] at this
    exact this.2
  obtain ⟨sm, hsm1, hsm2, hsmnum⟩ := hWF rm hrmf.1 hrmc hrmp
  have hmval : m = mkNumber pfx yr sm := by rw [← hrmnum, hsmnum]
  have hsrle : sr ≤ sm := by
    by_contra hgt
    have hlt : sm < sr := by omega
    have : charListLt m.data r.number.data = true := by
      rw [hmval, hsrnum]
      exact (charListLt_mkNumber (by omega) (by omega)).mpr hlt
    rw [hall _ hrnum] at this
    exact Bool.false_ne_true this
  rw [save_next_number, hmax]
  show numberStem pfx yr ++ format4 (seqOf m + 1) ≠ r.number
  rw [hmval, seqOf_mkNumber (show sm < 10000 by omega)]
  intro hcontra
  rw [hsrnum] at hcontra
  have hcontra' : mkNumber pfx yr (sm + 1) = mkNumber pfx yr sr := hcontra
  rcases Nat.lt_or_ge (sm + 1) 10000 with hlt | hge
  · have := mkNumber_inj hlt (by omega) hcontra'
    omega
  · have h10000 : sm + 1 = 10000 := by omega
    exact mkNumber_seq_length_ne (by omega) h10000 hcontra'

/-! ### The claims -/

/-- C1: for every document, `subtotal` is the sum of the items'
`line_total`, `tax_total` is `subtotal * tax_rate / 100`, `discount_total`
is `subtotal * discount_rate / 100` and `total` is
`subtotal + tax_total - discount_total`; in particular the invoice with one
line item (qty=2, unit_price=100, discount=10%), tax_rate=8.25% and
discount_rate=0 has subtotal 180.00, tax_total 14.85 and total 194.85. -/
theorem claim_C1 :
    (∀ d : Document,
      d.subtotal = (d.items.map LineItem.line_total).sum ∧
      d.tax_total = d.subtotal * d.tax_rate / 100 ∧
      d.discount_total = d.subtotal * d.discount_rate / 100 ∧
      d.total = d.subtotal + d.tax_total - d.discount_total) ∧
    example_invoice.subtotal = 180 ∧
    example_invoice.tax_total = 14.85 ∧
    example_invoice.total = 194.85 := by
  refine ⟨fun d => ⟨rfl, rfl, rfl, rfl⟩, ?_, ?_, ?_⟩ <;>
    norm_num [example_invoice, example_item, Document.subtotal, Document.tax_total,
      Document.discount_total, Document.total, LineItem.line_total]

/-- C2: for every line item, `line_total` equals
`quantity * unit_price * (1 - discount/100)`, i.e. `quantity * unit_price`
minus `(quantity * unit_price * discount) / 100`. -/
theorem claim_C2 : ∀ it : LineItem,
    it.line_total = (it.quantity : ℚ) * it.unit_price * (1 - it.discount / 100) ∧
    it.line_total = (it.quantity : ℚ) * it.unit_price -
      ((it.quantity : ℚ) * it.unit_price * it.discount) / 100 := by
  intro it
  constructor
  · rw [LineItem.line_total]; ring
  · rfl

/-- C10: `lock_version_data` changes the `versioned_data` field only
(`save(update_fields=['versioned_data'])`): every other field of the
document and all of its line items are unchanged. -/
theorem claim_C10 : ∀ (d : Document) (co : Company) (now : ℕ),
    (lock_version_data d co now).companyId = d.companyId ∧
    (lock_version_data d co now).createdById = d.createdById ∧
    (lock_version_data d co now).client_name = d.client_name ∧
    (lock_version_data d co now).client_company = d.client_company ∧
    (lock_version_data d co now).client_email = d.client_email ∧
    (lock_version_data d co now).client_phone = d.client_phone ∧
    (lock_version_data d co now).client_address = d.client_address ∧
    (lock_version_data d co now).number = d.number ∧
    (lock_version_data d co now).issue_date = d.issue_date ∧
    (lock_version_data d co now).due_date = d.due_date ∧
    (lock_version_data d co now).currency = d.currency ∧
    (lock_version_data d co now).tax_rate = d.tax_rate ∧
    (lock_version_data d co now).discount_rate = d.discount_rate ∧
    (lock_version_data d co now).notes = d.notes ∧
    (lock_version_data d co now).metadata = d.metadata ∧
    (lock_version_data d co now).status = d.status ∧
    (lock_version_data d co now).is_deleted = d.is_deleted ∧
    (lock_version_data d co now).items = d.items :=
  fun _ _ _ =>
    ⟨rfl, rfl, rfl, rfl, rfl, rfl, rfl, rfl, rfl, rfl, rfl, rfl, rfl, rfl, rfl, rfl, rfl, rfl⟩

theorem match_format_comm (p : String) (o : Option String) :
    (match o with
     | none => p ++ format4 1
     | some m => p ++ format4 (seqOf m + 1)) =
    p ++ format4 (match o with | none => 1 | some m => seqOf m + 1) := by
  cases o <;> rfl

theorem create_run_numbers_pairwise (c : ℕ) (pfx : String) (yr n : ℕ) (hn : n ≤ 9999) :
    ((create_run c pfx yr n).map DocRow.number).Pairwise
      (fun a b => a ≠ b ∧ seqOf a < seqOf b) := by
  rw [create_run_eq c pfx yr n hn, List.map_map, List.pairwise_map]
  apply (List.pairwise_lt_range n).imp_of_mem
  intro i j hi hj hij
  have hjn : j < n := List.mem_range.mp hj
  have hib : i + 1 < 10000 := by omega
  have hjb : j + 1 < 10000 := by omega
  constructor
  · intro hcontra
    have : i + 1 = j + 1 := mkNumber_inj hib hjb hcontra
    omega
  · simp only [Function.comp]
    rw [seqOf_mkNumber hib, seqOf_mkNumber hjb]
    omega

/-- C3 counterexample: the claim covers every path that assigns a number,
but documents created through the web views are numbered by
`generate_next_number` (utils.py), which — with the `Company` model's
default invoice prefix "INV" — numbers a company's first invoice "INV0001",
not "INV-2025-0001" as the max-based algorithm of `Invoice.save` does. -/
theorem claim_C3_counterexample :
    generate_next_number_invoice [] 1 "INV" = "INV0001" ∧
    save_next_number [] 1 "INV" 2025 = "INV-2025-0001" ∧
    generate_next_number_invoice [] 1 "INV" ≠ save_next_number [] 1 "INV" 2025 := by
  decide

/-- C3 (amended): numbers assigned by the `save` methods of
Invoice/Quote/Receipt (i.e. when the `number` field is blank) follow the
spec's algorithm exactly — find the maximum existing number with the current
year's prefix for that company, parse the trailing sequence, increment
(default 1), format as `{prefix}-{year}-{seq:04d}` — and in particular the
first two invoices of a company with prefix "INV" in year 2025 are numbered
"INV-2025-0001" and "INV-2025-0002".  (Documents created through the web
views are numbered by `utils.generate_next_number` instead, which omits the
year; see the counterexample.) -/
theorem claim_C3 :
    (∀ (db : List DocRow) (c : ℕ) (pfx : String) (yr : ℕ),
      save_next_number db c pfx yr = spec_next_number db c pfx yr) ∧
    (create_document [] 1 "INV" 2025).2 = "INV-2025-0001" ∧
    (create_document (create_document [] 1 "INV" 2025).1 1 "INV" 2025).2 = "INV-2025-0002" := by
  refine ⟨fun db c pfx yr => ?_, by decide, by decide⟩
  simp only [save_next_number, spec_next_number, numberStem]
  exact match_format_comm _ _

/-- C4 counterexample: a sequence number IS assigned again after the
document holding it is hard-deleted (removed from the table, as the ORM's
`delete()` does): create two invoices ("INV-2025-0001", "INV-2025-0002"),
delete the second row, and the next `save` assigns "INV-2025-0002" again. -/
theorem claim_C4_counterexample :
    (create_document (create_document [] 1 "INV" 2025).1 1 "INV" 2025).2 = "INV-2025-0002" ∧
    save_next_number
      ((create_document (create_document [] 1 "INV" 2025).1 1 "INV" 2025).1.filter
        fun r => !(r.number == "INV-2025-0002")) 1 "INV" 2025 = "INV-2025-0002" := by
  decide

/-- C4 (amended): creating N documents sequentially through `save` (no
concurrency, no deletions, N ≤ 9999) yields exactly the numbers
`{prefix}-{year}-0001 … {prefix}-{year}-{N:04d}`: pairwise distinct,
zero-padded, and strictly increasing in the sequence part.  Moreover, as
long as every row carrying the company's current-year stem remains in the
table — including rows merely soft-deleted via the `is_deleted` flag — a
sequence number that has been assigned is never assigned again; a number
only becomes reusable if its row is hard-deleted (see the counterexample). -/
theorem claim_C4 :
    (∀ (c : ℕ) (pfx : String) (yr n : ℕ), n ≤ 9999 →
      create_run c pfx yr n =
        (List.range n).map (fun i => ⟨c, mkNumber pfx yr (i + 1), false⟩) ∧
      ((create_run c pfx yr n).map DocRow.number).Pairwise
        (fun a b => a ≠ b ∧ seqOf a < seqOf b)) ∧
    (∀ (db : List DocRow) (c : ℕ) (pfx : String) (yr : ℕ),
      (∀ r ∈ db, r.company = c →
        List.isPrefixOf (numberStem pfx yr).data r.number.data = true →
        ∃ s, 1 ≤ s ∧ s ≤ 9999 ∧ r.number = mkNumber pfx yr s) →
      ∀ r ∈ db, r.company = c →
        List.isPrefixOf (numberStem pfx yr).data r.number.data = true →
        save_next_number db c pfx yr ≠ r.number) := by
  constructor
  · intro c pfx yr n hn
    exact ⟨create_run_eq c pfx yr n hn, create_run_numbers_pairwise c pfx yr n hn⟩
  · exact save_next_number_not_mem

/-- Witness for C4 at concrete inputs: a two-document run, and a table
holding one soft-deleted row whose number is not reassigned. -/
theorem claim_C4_witness :
    (create_run 1 "INV" 2025 2 =
        (List.range 2).map (fun i => ⟨1, mkNumber "INV" 2025 (i + 1), false⟩) ∧
      ((create_run 1 "INV" 2025 2).map DocRow.number).Pairwise
        (fun a b => a ≠ b ∧ seqOf a < seqOf b)) ∧
    save_next_number [⟨1, mkNumber "INV" 2025 1, true⟩] 1 "INV" 2025 ≠
      mkNumber "INV" 2025 1 := by
  constructor
  · exact claim_C4.1 1 "INV" 2025 2 (by norm_num)
  · refine claim_C4.2 [⟨1, mkNumber "INV" 2025 1, true⟩] 1 "INV" 2025 ?_
      ⟨1, mkNumber "INV" 2025 1, true⟩ (by decide) rfl (by decide)
    intro r hr _ _
    have : r = ⟨1, mkNumber "INV" 2025 1, true⟩ := by
      simpa using hr
    subst this
    exact ⟨1, le_refl 1, by norm_num, rfl⟩

/-- C9: the `unique=True` constraint on `number` is global across
companies: with one company's first invoice "INV-2025-0001" in the table, a
second company (same prefix and year, no documents yet) is assigned the
same number — its per-company max query sees nothing — so the insert
violates the global uniqueness constraint instead of starting an
independent sequence. -/
theorem claim_C9 : ∀ (db : List DocRow) (c1 c2 : ℕ) (pfx : String) (yr : ℕ) (r1 : DocRow),
    c1 ≠ c2 →
    (∀ r ∈ db, r.company ≠ c2) →
    r1 ∈ db → r1.company = c1 → r1.number = mkNumber pfx yr 1 →
    save_next_number db c2 pfx yr = mkNumber pfx yr 1 ∧
    unique_violation db (save_next_number db c2 pfx yr) := by
  intro db c1 c2 pfx yr r1 hne hno hmem hc1 hnum
  have hfilter : db.filter
      (fun r => r.company == c2 && (numberStem pfx yr).data.isPrefixOf r.number.data) = [] := by
    apply List.filter_eq_nil_iff.mpr
    intro r hr
    simp [hno r hr]
  have hnext : save_next_number db c2 pfx yr = mkNumber pfx yr 1 := by
    rw [save_next_number, hfilter]
    rfl
  refine ⟨hnext, r1, hmem, ?_⟩
  rw [hnext]
  exact hnum

/-- Witness for C9 at concrete inputs. -/
theorem claim_C9_witness :
    save_next_number [⟨1, mkNumber "INV" 2025 1, false⟩] 2 "INV" 2025 = mkNumber "INV" 2025 1 ∧
    unique_violation [⟨1, mkNumber "INV" 2025 1, false⟩]
      (save_next_number [⟨1, mkNumber "INV" 2025 1, false⟩] 2 "INV" 2025) :=
  claim_C9 [⟨1, mkNumber "INV" 2025 1, false⟩] 1 2 "INV" 2025
    ⟨1, mkNumber "INV" 2025 1, false⟩ (by decide) (by decide) (by decide) rfl rfl

/-- C5: once a document's `versioned_data` has been locked (made
non-empty), `create_pdf_for_document` leaves it unchanged and renders from
the frozen blob rather than recomputing it; in particular mutating the line
items or swapping the company's branding afterwards does not change the
locked snapshot, and the blob that gets rendered stays the original one. -/
theorem claim_C5 : ∀ (d : Document) (co co2 : Company) (items2 : List LineItem)
    (dt : String) (di now now2 secs secs2 : ℕ) (tok tok2 : String) (s : Snapshot),
    d.versioned_data = some s →
    (create_pdf_for_document d co dt di now secs tok).1.versioned_data = some s ∧
    (create_pdf_for_document d co dt di now secs tok).2.2 = some s ∧
    (create_pdf_for_document { d with items := items2 } co2 dt di now2 secs2
      tok2).1.versioned_data = some s ∧
    (create_pdf_for_document { d with items := items2 } co2 dt di now2 secs2
      tok2).2.2 = some s := by
  intro d co co2 items2 dt di now now2 secs secs2 tok tok2 s h
  have h2 : ({ d with items := items2 } : Document).versioned_data = some s := h
  refine ⟨?_, ?_, ?_, ?_⟩ <;> simp [create_pdf_for_document, h, h2]

/-- Witness for C5: a locked example invoice, regenerated once as-is and
once after replacing its items and its company's branding. -/
theorem claim_C5_witness :
    (create_pdf_for_document (lock_version_data example_invoice example_company 0)
      example_company "invoice" 1 5 60 "tok").1.versioned_data =
        some (mkSnapshot example_invoice example_company 0) ∧
    (create_pdf_for_document (lock_version_data example_invoice example_company 0)
      example_company "invoice" 1 5 60 "tok").2.2 =
        some (mkSnapshot example_invoice example_company 0) ∧
    (create_pdf_for_document
      { lock_version_data example_invoice example_company 0 with items := [] }
      { example_company with name := "Other" } "invoice" 1 7 60 "tok2").1.versioned_data =
        some (mkSnapshot example_invoice example_company 0) ∧
    (create_pdf_for_document
      { lock_version_data example_invoice example_company 0 with items := [] }
      { example_company with name := "Other" } "invoice" 1 7 60 "tok2").2.2 =
        some (mkSnapshot example_invoice example_company 0) :=
  claim_C5 (lock_version_data example_invoice example_company 0) example_company
    { example_company with name := "Other" } [] "invoice" 1 5 7 60 60 "tok" "tok2"
    (mkSnapshot example_invoice example_company 0) rfl

/-- C6: for a user who can access a document, the edit check returns false
exactly when the status is sent/paid/partially-paid and the role is neither
owner nor admin, and true otherwise; a "user"-role account cannot edit a
sent document created by someone else, while an owner (of the document's
company) can. -/
theorem claim_C6 : ∀ (u : AppUser) (d : Document),
    (can_user_access_document u d = true →
      (can_user_edit_document u d = false ↔
        ((d.status = Status.sent ∨ d.status = Status.paid ∨
            d.status = Status.partially_paid) ∧
          u.role ≠ Role.owner ∧ u.role ≠ Role.admin))) ∧
    (u.role = Role.user → d.createdById ≠ u.id → d.status = Status.sent →
      can_user_edit_document u d = false) ∧
    (u.is_authenticated = true → u.company = some d.companyId → u.role = Role.owner →
      d.status = Status.sent → d.createdById ≠ u.id →
      can_user_edit_document u d = true) := by
  intro u d
  have hPQ : ((d.status = Status.sent ∨ d.status = Status.paid ∨
        d.status = Status.partially_paid) ∧
      ¬ (u.role = Role.owner ∨ u.role = Role.admin)) ↔
      ((d.status = Status.sent ∨ d.status = Status.paid ∨
        d.status = Status.partially_paid) ∧
      u.role ≠ Role.owner ∧ u.role ≠ Role.admin) := by
    constructor
    · intro h
      exact ⟨h.1, fun ho => h.2 (Or.inl ho), fun ha => h.2 (Or.inr ha)⟩
    · intro h
      refine ⟨h.1, fun hor => ?_⟩
      rcases hor with ho | ha
      · exact h.2.1 ho
      · exact h.2.2 ha
  refine ⟨?_, ?_, ?_⟩
  · intro hacc
    rw [can_user_edit_document, hacc]
    rw [if_neg (by simp : ¬ (true = false))]
    split_ifs with hcond
    · simp only [eq_self_iff_true, true_iff]
      exact hPQ.mp hcond
    · simp only [Bool.true_eq_false, false_iff]
      exact fun hq => hcond (hPQ.mpr hq)
  · intro hrole hcreated _
    have hacc : can_user_access_document u d = false := by
      rw [can_user_access_document]
      cases hauth : u.is_authenticated with
      | false => simp
      | true =>
        rw [if_neg (by simp : ¬ (true = false))]
        cases hc : u.company with
        | none => rfl
        | some cid =>
          show (if ¬ d.companyId = cid then false
            else if u.role = Role.owner ∨ u.role = Role.admin then true
            else if u.role = Role.accountant then true
            else if d.createdById = u.id then true else false) = false
          by_cases hcid : d.companyId = cid
          · rw [if_neg (not_not_intro hcid), hrole,
              if_neg (by decide : ¬ (Role.user = Role.owner ∨ Role.user = Role.admin)),
              if_neg (by decide : ¬ Role.user = Role.accountant),
              if_neg (fun h => hcreated h)]
          · rw [if_pos hcid]
    rw [can_user_edit_document, hacc, if_pos rfl]
  · intro hauth hcomp hrole _ _
    have hacc : can_user_access_document u d = true := by
      rw [can_user_access_document, hauth, hcomp]
      rw [if_neg (by simp : ¬ (true = false))]
      show (if ¬ d.companyId = d.companyId then false
        else if u.role = Role.owner ∨ u.role = Role.admin then true
        else if u.role = Role.accountant then true
        else if d.createdById = u.id then true else false) = true
      rw [if_neg (not_not_intro rfl), if_pos (Or.inl hrole)]
    rw [can_user_edit_document, hacc,
      if_neg (by simp : ¬ (true = false)),
      if_neg (fun h => h.2 (Or.inl hrole))]

/-- Witness for C6: an owner and a plain user of company 1 against a sent
document created by user 7. -/
theorem claim_C6_witness :
    (can_user_access_document ⟨2, Role.user, some 1, true⟩
        { example_invoice with status := Status.sent, createdById := 7 } = true →
      (can_user_edit_document ⟨2, Role.user, some 1, true⟩
          { example_invoice with status := Status.sent, createdById := 7 } = false ↔
        ((({ example_invoice with status := Status.sent, createdById := 7 } :
              Document).status = Status.sent ∨
            ({ example_invoice with status := Status.sent, createdById := 7 } :
              Document).status = Status.paid ∨
            ({ example_invoice with status := Status.sent, createdById := 7 } :
              Document).status = Status.partially_paid) ∧
          Role.user ≠ Role.owner ∧ Role.user ≠ Role.admin))) ∧
    can_user_edit_document ⟨2, Role.user, some 1, true⟩
      { example_invoice with status := Status.sent, createdById := 7 } = false ∧
    can_user_edit_document ⟨2, Role.owner, some 1, true⟩
      { example_invoice with status := Status.sent, createdById := 7 } = true :=
  ⟨(claim_C6 ⟨2, Role.user, some 1, true⟩
      { example_invoice with status := Status.sent, createdById := 7 }).1,
    (claim_C6 ⟨2, Role.user, some 1, true⟩
      { example_invoice with status := Status.sent, createdById := 7 }).2.1
      rfl (by decide) rfl,
    (claim_C6 ⟨2, Role.owner, some 1, true⟩
      { example_invoice with status := Status.sent, createdById := 7 }).2.2
      rfl rfl rfl rfl (by decide)⟩

/-- C7: the delete check returns false on paid/partially-paid documents
regardless of role; on any other status it returns true exactly when the
role is owner or admin and the user can access the document. -/
theorem claim_C7 : ∀ (u : AppUser) (d : Document),
    ((d.status = Status.paid ∨ d.status = Status.partially_paid) →
      can_user_delete_document u d = false) ∧
    (d.status ≠ Status.paid → d.status ≠ Status.partially_paid →
      (can_user_delete_document u d = true ↔
        ((u.role = Role.owner ∨ u.role = Role.admin) ∧
          can_user_access_document u d = true))) := by
  intro u d
  constructor
  · intro hst
    rw [can_user_delete_document]
    split_ifs with h1 h2 h3
    all_goals first
      | rfl
      | exact absurd hst h3
  · intro hp hpp
    rw [can_user_delete_document]
    split_ifs with h1 h2 h3
    · simp only [false_iff]
      intro habs
      rw [h1] at habs
      exact Bool.false_ne_true habs.2
    · rcases h3 with h | h
      · exact absurd h hp
      · exact absurd h hpp
    · have hacc : can_user_access_document u d = true := by
        revert h1
        cases can_user_access_document u d <;> simp
      simp only [eq_self_iff_true, true_iff]
      exact ⟨h2, hacc⟩
    · simp only [false_iff]
      intro habs
      exact h2 habs.1

/-- Witness for C7: an owner against a paid document (delete blocked) and
against a draft document (delete allowed). -/
theorem claim_C7_witness :
    can_user_delete_document ⟨1, Role.owner, some 1, true⟩
      { example_invoice with status := Status.paid } = false ∧
    (can_user_delete_document ⟨1, Role.owner, some 1, true⟩ example_invoice = true ↔
      ((Role.owner = Role.owner ∨ Role.owner = Role.admin) ∧
        can_user_access_document ⟨1, Role.owner, some 1, true⟩ example_invoice = true)) :=
  ⟨(claim_C7 ⟨1, Role.owner, some 1, true⟩
      { example_invoice with status := Status.paid }).1 (Or.inl rfl),
    (claim_C7 ⟨1, Role.owner, some 1, true⟩ example_invoice).2
      (by decide) (by decide)⟩

/-- C8: a download request whose token matches no `PDFLog`, or whose log is
expired, or whose file is missing, fails with a not-found response and
leaves the table (in particular every `downloaded_at`) unchanged; a
successful download keeps every row (nothing is deleted, tokens and
`deleted` flags unchanged), stamps `downloaded_at := now` iff it was unset,
and leaves the table untouched when `downloaded_at` was already set. -/
theorem claim_C8 : ∀ (db : List PDFLog) (tok : String) (files : List String) (now : ℕ),
    (db.find? (fun l => l.download_token == tok) = none →
      serve_pdf_download db tok files now = (Except.error "PDF download failed", db)) ∧
    (∀ log, db.find? (fun l => l.download_token == tok) = some log →
      now > log.expires_at →
      serve_pdf_download db tok files now = (Except.error "PDF download failed", db)) ∧
    (∀ log, db.find? (fun l => l.download_token == tok) = some log →
      ¬ now > log.expires_at →
      (log.file_path = none ∨
        ∃ path, log.file_path = some path ∧ (path = "" ∨ ¬ files.contains path)) →
      serve_pdf_download db tok files now = (Except.error "PDF download failed", db)) ∧
    (∀ log path, db.find? (fun l => l.download_token == tok) = some log →
      ¬ now > log.expires_at →
      log.file_path = some path → ¬ path = "" → files.contains path = true →
      (serve_pdf_download db tok files now).1 =
        Except.ok (path, log.document_type ++ "_" ++ toString log.document_id ++ ".pdf") ∧
      ((serve_pdf_download db tok files now).2.map PDFLog.download_token =
        db.map PDFLog.download_token) ∧
      ((serve_pdf_download db tok files now).2.map PDFLog.deleted =
        db.map PDFLog.deleted) ∧
      (serve_pdf_download db tok files now).2.length = db.length ∧
      (log.downloaded_at = none →
        (serve_pdf_download db tok files now).2.find? (fun l => l.download_token == tok) =
          some { log with downloaded_at := some now }) ∧
      (∀ t0, log.downloaded_at = some t0 →
        (serve_pdf_download db tok files now).2 = db)) := by
  intro db tok files now
  refine ⟨?_, ?_, ?_, ?_⟩
  · intro hfind
    simp only [serve_pdf_download, hfind]
  · intro log hfind hexp
    simp only [serve_pdf_download, hfind]
    rw [if_pos hexp]
  · intro log hfind hexp hbad
    simp only [serve_pdf_download, hfind]
    rw [if_neg hexp]
    rcases hbad with hnone | ⟨path, hpath, hor⟩
    · rw [hnone]
    · rw [hpath]
      show (if path = "" ∨ ¬ files.contains path then
          (Except.error "PDF download failed", db) else _) = _
      rw [if_pos hor]
  · intro log path hfind hexp hpath hne hcont
    have hcond : ¬ (path = "" ∨ ¬ files.contains path) := by
      intro h
      rcases h with h | h
      · exact hne h
      · exact h hcont
    have htokpred : ∀ a : PDFLog,
        ((fun l => if l.download_token == tok then { l with downloaded_at := some now }
          else l) a).download_token = a.download_token := by
      intro a
      by_cases h : a.download_token == tok <;> simp [h]
    have hdelpred : ∀ a : PDFLog,
        ((fun l => if l.download_token == tok then { l with downloaded_at := some now }
          else l) a).deleted = a.deleted := by
      intro a
      by_cases h : a.download_token == tok <;> simp [h]
    have hserve : serve_pdf_download db tok files now =
        (Except.ok (path, log.document_type ++ "_" ++ toString log.document_id ++ ".pdf"),
          if log.downloaded_at = none then
            db.map fun l =>
              if l.download_token == tok then { l with downloaded_at := some now } else l
          else db) := by
      simp only [serve_pdf_download, hfind]
      rw [if_neg hexp, hpath]
      show (if path = "" ∨ ¬ files.contains path then
          ((Except.error "PDF download failed" : Except String (String × String)), db)
        else (Except.ok (path, log.document_type ++ "_" ++ toString log.document_id ++ ".pdf"),
          if log.downloaded_at = none then
            db.map fun l =>
              if l.download_token == tok then { l with downloaded_at := some now } else l
          else db)) = _
      rw [if_neg hcond]
    rw [hserve]
    cases hdl : log.downloaded_at with
    | none =>
      rw [if_pos rfl]
      refine ⟨rfl, ?_, ?_, by simp, ?_, ?_⟩
      · rw [List.map_map]
        exact List.map_congr_left fun a _ => htokpred a
      · rw [List.map_map]
        exact List.map_congr_left fun a _ => hdelpred a
      · intro _
        have hpred : ((fun l => l.download_token == tok) ∘
            (fun l => if l.download_token == tok then { l with downloaded_at := some now }
              else l)) = fun l : PDFLog => l.download_token == tok := by
          funext a
          simp only [Function.comp]
          rw [htokpred a]
        rw [List.find?_map, hpred, hfind]
        have htok := List.find?_some hfind
        simp only [Option.map_some']
        rw [if_pos htok]
      · intro t0 ht0
        cases ht0
    | some t =>
      rw [if_neg (by simp)]
      refine ⟨rfl, rfl, rfl, rfl, ?_, fun t0 _ => rfl⟩
      intro habs
      cases habs

/-- Witness for C8: an unknown token on an empty table, and a successful
first download of a valid log. -/
theorem claim_C8_witness :
    serve_pdf_download [] "tok" ["f.pdf"] 50 = (Except.error "PDF download failed", []) ∧
    (serve_pdf_download [⟨1, "invoice", 5, some "f.pdf", "tok", 0, 100, none, false⟩]
        "tok" ["f.pdf"] 50).1 = Except.ok ("f.pdf", "invoice_5.pdf") ∧
    (serve_pdf_download [⟨1, "invoice", 5, some "f.pdf", "tok", 0, 100, none, false⟩]
        "tok" ["f.pdf"] 50).2.find? (fun l => l.download_token == "tok") =
      some ⟨1, "invoice", 5, some "f.pdf", "tok", 0, 100, some 50, false⟩ := by
  refine ⟨(claim_C8 [] "tok" ["f.pdf"] 50).1 rfl, ?_, ?_⟩
  · exact ((claim_C8 [⟨1, "invoice", 5, some "f.pdf", "tok", 0, 100, none, false⟩]
      "tok" ["f.pdf"] 50).2.2.2
      ⟨1, "invoice", 5, some "f.pdf", "tok", 0, 100, none, false⟩ "f.pdf"
      rfl (by decide) rfl (by decide) (by decide)).1
  · exact ((claim_C8 [⟨1, "invoice", 5, some "f.pdf", "tok", 0, 100, none, false⟩]
      "tok" ["f.pdf"] 50).2.2.2
      ⟨1, "invoice", 5, some "f.pdf", "tok", 0, 100, none, false⟩ "f.pdf"
      rfl (by decide) rfl (by decide) (by decide)).2.2.2.2.1 rfl

end Billing
